import Mathlib

/-!
Shallow embedding of the issue-processing pipeline of the
CERM-Jira-LLM-Automation repository, together with proofs about the
claims of its specification.

The embedded code lives in:
* `src/src/services/gatherer.py` — relevance classifier (`ai_filter_comments`,
  `_extract_json`, `_compact`) and the reference retriever (`query_pinecone`);
* `src/src/services/builder.py` — prompt compiler (`compile_messages` and its
  local `_compact`);
* `src/src/utils/text.py` — output renderer (`build_jira_comment`).

Python strings are modelled as `List Char` / `String`, Python numbers as `ℚ`,
JSON/ADF values as the inductive `PyVal`, fallible operations as `Option`.
External collaborators (the Jira tracker, the LLM and the vector index) are
modelled as explicit parameters: the model response is a `String` argument,
the vector-index result list a `List VectorMatch` argument, today's date a
`String` argument.
-/

set_option autoImplicit false

set_option allowUnsafeReducibility true in
attribute [semireducible] Rat.add Rat.mul Rat.inv Rat.sub Rat.ofScientific

namespace CermPipeline

/-! ## Basic Python string helpers -/

/-- Whitespace characters recognised both by `str.strip` (for the ASCII cases
that occur in this pipeline) and by the JSON grammar of `json.loads`. -/
def isWs (c : Char) : Bool :=
  c = ' ' || c = '\t' || c = '\n' || c = '\r'

/-- Model of Python `s.strip()` on a character list. -/
def pyStrip (l : List Char) : List Char :=
  ((l.dropWhile isWs).reverse.dropWhile isWs).reverse

/-- Model of Python `s.strip()` on a `String`. -/
def stripStr (s : String) : String :=
  String.mk (pyStrip s.toList)

/-- Model of Python `s.replace("\r", "")`. -/
def rmCR (l : List Char) : List Char :=
  l.filter (fun c => c ≠ '\r')

/-- Model of `text[:n]` for an `Int` index `n` (Python slice semantics:
a negative `n` counts from the end, clamped at 0). -/
def pySliceTo (n : ℤ) (l : List Char) : List Char :=
  if 0 ≤ n then l.take n.toNat else l.take (l.length - (-n).toNat)

/-- Model of `text[-n:]` for `n > 0` (Python slice semantics: the final `n`
characters, or the whole string when it is shorter than `n`). -/
def pyLastN (n : ℕ) (l : List Char) : List Char :=
  l.drop (l.length - n)

/-! ## Python/JSON values

`PyVal` models the Python values that `json.loads` can produce and that the
renderer assembles into an ADF payload: `None`, booleans, numbers (as `ℚ`),
strings, lists and (insertion-ordered) dicts. -/

inductive PyVal where
  | null : PyVal
  | bool : Bool → PyVal
  | num : ℚ → PyVal
  | str : String → PyVal
  | arr : List PyVal → PyVal
  | obj : List (String × PyVal) → PyVal
deriving Repr

/-- Python truthiness of a JSON-produced value (`None`, `False`, `0`, `""`,
`[]`, `{}` are falsy). -/
def pyTruthy : PyVal → Bool
  | .null => false
  | .bool b => b
  | .num q => decide (q ≠ 0)
  | .str s => decide (s ≠ "")
  | .arr xs => !xs.isEmpty
  | .obj fs => !fs.isEmpty

/-- Insert into a Python dict: an existing key is updated in place (keeping
its original position), a new key is appended. -/
def dictInsert (fs : List (String × PyVal)) (k : String) (v : PyVal) :
    List (String × PyVal) :=
  if fs.any (fun kv => kv.1 = k) then
    fs.map (fun kv => if kv.1 = k then (k, v) else kv)
  else
    fs ++ [(k, v)]

/-! ## A JSON parser modelling `json.loads`

Fuel-based recursive descent on `List Char`.  The fuel only bounds the
nesting/iteration depth; since every recursive call strictly consumes input,
`length + 2` fuel always suffices, so `parseJson` agrees with `json.loads`
on well-formed input and rejects what `json.loads` rejects (up to exotic
numeric forms such as `Infinity`/`NaN`, which do not occur here). -/

/-- Skip JSON whitespace. -/
def skipWs (l : List Char) : List Char :=
  l.dropWhile isWs

/-- Parse the body of a JSON string literal (the opening quote already
consumed), handling the standard escapes.  Returns the decoded characters
and the rest of the input. -/
def parseStrBody : List Char → Option (List Char × List Char)
  | [] => none
  | '"' :: r => some ([], r)
  | '\\' :: 'u' :: a :: b :: c :: d :: r =>
    if hexDigit a && hexDigit b && hexDigit c && hexDigit d then
      (parseStrBody r).map (fun (cs, rest) =>
        (Char.ofNat (4096 * hexVal a + 256 * hexVal b + 16 * hexVal c + hexVal d) :: cs, rest))
    else none
  | '\\' :: e :: r =>
    match escChar e with
    | some c => (parseStrBody r).map (fun (cs, rest) => (c :: cs, rest))
    | none => none
  | c :: r => (parseStrBody r).map (fun (cs, rest) => (c :: cs, rest))
where
  /-- Recognise a hex digit. -/
  hexDigit (c : Char) : Bool :=
    c.isDigit || ('a' ≤ c && c ≤ 'f') || ('A' ≤ c && c ≤ 'F')
  /-- Value of a hex digit. -/
  hexVal (c : Char) : ℕ :=
    if c.isDigit then c.toNat - 48
    else if 'a' ≤ c ∧ c ≤ 'f' then c.toNat - 87
    else if 'A' ≤ c ∧ c ≤ 'F' then c.toNat - 55
    else 0
  /-- Decode a single-character escape. -/
  escChar : Char → Option Char
    | '"' => some '"'
    | '\\' => some '\\'
    | '/' => some '/'
    | 'b' => some '\x08'
    | 'f' => some '\x0c'
    | 'n' => some '\n'
    | 'r' => some '\r'
    | 't' => some '\t'
    | _ => none

/-- Digits to a natural number. -/
def digitsToNat (ds : List Char) : ℕ :=
  ds.foldl (fun n c => 10 * n + (c.toNat - 48)) 0

/-- Parse a JSON number (mantissa, optional fraction, optional exponent)
into a rational. -/
def parseNum (l : List Char) : Option (PyVal × List Char) :=
  let (negSign, l1) :=
    match l with
    | '-' :: r => (true, r)
    | _ => (false, l)
  let intDigits := l1.takeWhile Char.isDigit
  let l2 := l1.dropWhile Char.isDigit
  if intDigits = [] then none
  else
    let intPart : ℚ := (digitsToNat intDigits : ℚ)
    let (fracPart, l3) :=
      match l2 with
      | '.' :: r =>
        let fds := r.takeWhile Char.isDigit
        (((digitsToNat fds : ℚ) / (10 : ℚ) ^ fds.length, !fds.isEmpty),
          r.dropWhile Char.isDigit)
      | _ => ((0, true), l2)
    if !fracPart.2 then none
    else
      let mantissa := intPart + fracPart.1
      let expRes : Option (ℚ × List Char) :=
        match l3 with
        | 'e' :: r => parseExp r
        | 'E' :: r => parseExp r
        | _ => some (1, l3)
      match expRes with
      | none => none
      | some (scale, rest) =>
        let q := mantissa * scale
        some (.num (if negSign then -q else q), rest)
where
  /-- Parse the signed exponent digits, returning the scale `10^e`. -/
  parseExp (r : List Char) : Option (ℚ × List Char) :=
    let (eneg, r1) :=
      match r with
      | '-' :: t => (true, t)
      | '+' :: t => (false, t)
      | _ => (false, r)
    let eds := r1.takeWhile Char.isDigit
    if eds = [] then none
    else
      let e := digitsToNat eds
      let scale : ℚ := if eneg then 1 / (10 : ℚ) ^ e else (10 : ℚ) ^ e
      some (scale, r1.dropWhile Char.isDigit)

/-- Check that the literal `lit` heads the input and drop it. -/
def dropLit (lit : List Char) (l : List Char) : Option (List Char) :=
  if lit = l.take lit.length then some (l.drop lit.length) else none

/-- Parser mode: a whole value, the members of an object (accumulating a
dict), or the elements of an array. -/
inductive PMode where
  | val : PMode
  | members : List (String × PyVal) → PMode
  | elems : List PyVal → PMode

/-- The recursive-descent core, structural on the fuel so that a single
value, the member list of an object (after the opening brace, first key
ahead) and the element list of an array are all parsed by one function.
Mirrors what `json.loads` accepts. -/
def parseF : ℕ → PMode → List Char → Option (PyVal × List Char)
  | 0, _, _ => none
  | f + 1, .val, s =>
    match skipWs s with
    | [] => none
    | c :: r =>
      if c = '\x7b' then
        match skipWs r with
        | '\x7d' :: r2 => some (.obj [], r2)
        | r2 => parseF f (.members []) r2
      else if c = '[' then
        match skipWs r with
        | ']' :: r2 => some (.arr [], r2)
        | r2 => parseF f (.elems []) r2
      else if c = '"' then
        (parseStrBody r).map (fun (cs, rest) => (.str (String.mk cs), rest))
      else if c = 't' then
        (dropLit ['r', 'u', 'e'] r).map (fun rest => (.bool true, rest))
      else if c = 'f' then
        (dropLit ['a', 'l', 's', 'e'] r).map (fun rest => (.bool false, rest))
      else if c = 'n' then
        (dropLit ['u', 'l', 'l'] r).map (fun rest => (.null, rest))
      else
        parseNum (c :: r)
  | f + 1, .members acc, s =>
    match s with
    | '"' :: r =>
      match parseStrBody r with
      | none => none
      | some (kcs, r1) =>
        match skipWs r1 with
        | ':' :: r2 =>
          match parseF f .val r2 with
          | none => none
          | some (v, r3) =>
            match skipWs r3 with
            | ',' :: r4 => parseF f (.members (dictInsert acc (String.mk kcs) v)) (skipWs r4)
            | '\x7d' :: r4 => some (.obj (dictInsert acc (String.mk kcs) v), r4)
            | _ => none
        | _ => none
    | _ => none
  | f + 1, .elems acc, s =>
    match parseF f .val s with
    | none => none
    | some (v, r) =>
      match skipWs r with
      | ',' :: r2 => parseF f (.elems (acc ++ [v])) (skipWs r2)
      | ']' :: r2 => some (.arr (acc ++ [v]), r2)
      | _ => none

/-- Parse one JSON value. -/
def parseVal (f : ℕ) (s : List Char) : Option (PyVal × List Char) :=
  parseF f .val s

/-- Model of `json.loads`: parse a complete JSON document (whole input,
up to surrounding whitespace). -/
def parseJson (s : String) : Option PyVal :=
  match parseVal (s.length + 2) s.toList with
  | some (v, rest) => if skipWs rest = [] then some v else none
  | none => none

/-! ## `IssueGatherer._extract_json` (src/src/services/gatherer.py:130-146) -/

/-- Suffix of the input starting at its first opening brace, when one
exists. -/
def fromBrace : List Char → Option (List Char)
  | [] => none
  | c :: t => if c = '\x7b' then some (c :: t) else fromBrace t

/-- Suffix of the reversed input starting at its first closing brace.
Used to cut the input after its last closing brace. -/
def fromCloseRev : List Char → Option (List Char)
  | [] => none
  | c :: t => if c = '\x7d' then some (c :: t) else fromCloseRev t

/-- The substring matched by the greedy pattern `\x7b[\s\S]*\x7d` in
`re.search`: from the first opening brace to the last closing brace
(which must come after it), or `none` when there is no match. -/
def braceBlock (l : List Char) : Option (List Char) :=
  match fromBrace l with
  | none => none
  | some tail =>
    match fromCloseRev tail.reverse with
    | none => none
    | some revCut =>
      let cut := revCut.reverse
      if 2 ≤ cut.length then some cut else none

/-- Model of `IssueGatherer._extract_json`: strip the input, try a full JSON
parse, and otherwise parse the first-to-last brace block; `none` models the
Python `None` return. -/
def extractJson (content : String) : Option PyVal :=
  match parseJson (String.mk (pyStrip content.toList)) with
  | some v => some v
  | none =>
    match braceBlock (pyStrip content.toList) with
    | some b => parseJson (String.mk b)
    | none => none

/-! ## `_RelevantSelectionModel` validation (src/src/services/gatherer.py:24-43)

The pydantic model is
`scores: dict[str, Annotated[float, Field(ge=0, le=1)]] = Field(default_factory=dict)`
with `model_config = ConfigDict(extra="forbid")`.

Note on the `_validate_scores` method of the source: it is decorated
`@classmethod` above `@field_validator("scores", mode="after")`, i.e. the
`classmethod` wrapper hides the pydantic validator proxy from the model
metaclass, so the filtering validator is never registered and the effective
validation is just the annotated field schema: the whole `scores` dict fails
validation as soon as any single entry is not a number in `[0, 1]`.
`modelValidate` below embeds that effective behaviour; `validateScoresFilter`
embeds the (unregistered) filtering body itself. -/

/-- Validation of a single `_Score` value by the annotated field schema
(`float`, `ge=0`, `le=1`).  Plain JSON numbers only; the pydantic lax
coercions (numeric strings) do not occur in this pipeline. -/
def validateScoreEntry : PyVal → Option ℚ
  | .num q => if 0 ≤ q ∧ q ≤ 1 then some q else none
  | _ => none

/-- Effective semantics of `_RelevantSelectionModel.model_validate`:
`none` models a raised `ValidationError`, `some m` a validated model with
score map `m`.  `extra="forbid"` rejects unknown top-level keys; a missing
`scores` key yields the `default_factory` empty dict; any invalid entry in
`scores` is fatal for the whole validation (see the note above). -/
def modelValidate : PyVal → Option (List (String × ℚ))
  | .obj fields =>
    if fields.all (fun kv => kv.1 = "scores") then
      match fields.lookup "scores" with
      | none => some []
      | some (.obj entries) =>
        entries.mapM (fun kv => (validateScoreEntry kv.2).map (fun q => (kv.1, q)))
      | some _ => none
    else none
  | _ => none

/-- Python `float(v)` on a JSON-produced value (`float` of a bool is `0.0`
or `1.0`; `float` of a numeric string parses it; everything else raises,
modelled as `none`).  Used only by the unregistered `_validate_scores`
body. -/
def pyFloat : PyVal → Option ℚ
  | .num q => some q
  | .bool b => some (if b then 1 else 0)
  | .str s =>
    match parseNum (pyStrip s.toList) with
    | some (.num q, rest) => if rest = [] then some q else none
    | _ => none
  | _ => none

/-- The body of `_RelevantSelectionModel._validate_scores`
(src/src/services/gatherer.py:34-43): keep the entries that coerce to a
float in `[0, 1]`, silently dropping the rest.  This is the filtering the
specification describes; due to the decorator order it is never executed
by the source. -/
def validateScoresFilter (entries : List (String × PyVal)) : List (String × ℚ) :=
  entries.filterMap (fun kv =>
    match pyFloat kv.2 with
    | some f => if 0 ≤ f ∧ f ≤ 1 then some (kv.1, f) else none
    | none => none)

/-! ## `IssueGatherer.ai_filter_comments` (src/src/services/gatherer.py:155-182) -/

/-- A Jira comment as used by the classifier (`c.id` is compared via
`str(c.id)`; we model ids as strings directly). -/
structure JComment where
  id : String
  author : String
  created : String
  body : String
deriving DecidableEq, Repr

/-- The set comprehension
`{str(i) for i in parsed.scores.keys() if parsed.scores[i] >= relevance_score}`:
the ids whose validated score reaches the threshold. -/
def idSet (scores : List (String × ℚ)) (threshold : ℚ) : List String :=
  (scores.filter (fun kv => threshold ≤ kv.2)).map (fun kv => kv.1)

/-- The default used by `raw = IssueGatherer._extract_json(content) or ...`. -/
def defaultRaw : PyVal := .obj [("scores", .obj [])]

/-- The validated score map `parsed.scores` that `ai_filter_comments`
computes from the model response: extract JSON (falling back to
`{"scores": {}}` on a falsy or failed extraction) and validate it (falling
back to the empty model on a `ValidationError`). -/
def validatedScores (content : String) : List (String × ℚ) :=
  (modelValidate
    (match extractJson content with
     | some v => if pyTruthy v then v else defaultRaw
     | none => defaultRaw)).getD []

/-- Model of `IssueGatherer.ai_filter_comments` from the model response
`content` on: validate the response into a score map and select the issue's
comments whose id is scored at or above the threshold.  Returns
`(selected, parsed.scores)`. -/
def aiFilterComments (content : String) (comments : List JComment)
    (threshold : ℚ) : List JComment × List (String × ℚ) :=
  (comments.filter (fun c =>
      (idSet (validatedScores content) threshold).contains c.id),
   validatedScores content)

/-! ## Text compaction

Two sibling helpers: `IssueGatherer._compact` (src/src/services/gatherer.py:
68-77, default limit 1200, head `limit - 200`, tail 180) and the local
`_compact` of `PromptBuilder.compile_messages` (src/src/services/builder.py:
69-75, default limit 1800, head `limit - 220`, tail 200).  Both normalise
first: `text.replace("\r", "").strip()`. -/

/-- The truncation marker `"\n…\n"` inserted between head and tail. -/
def marker : List Char := ['\n', '…', '\n']

/-- Normalisation shared by both compactors: drop carriage returns, then
strip surrounding whitespace. -/
def normalizeText (s : String) : List Char :=
  pyStrip (rmCR s.toList)

/-- Model of `IssueGatherer._compact` (head `limit - 200`, tail 180). -/
def gathererCompact (limit : ℕ) (text : String) : String :=
  let t := normalizeText text
  if t.length ≤ limit then String.mk t
  else String.mk (pySliceTo ((limit : ℤ) - 200) t ++ marker ++ pyLastN 180 t)

/-- Model of the `_compact` local to `PromptBuilder.compile_messages`
(head `limit - 220`, tail 200). -/
def builderCompact (limit : ℕ) (text : String) : String :=
  let t := normalizeText text
  if t.length ≤ limit then String.mk t
  else String.mk (pySliceTo ((limit : ℤ) - 220) t ++ marker ++ pyLastN 200 t)

/-! ## References and the retriever (src/src/config/const.py:19-26,
src/src/services/gatherer.py:195-223) -/

/-- The `Reference` dataclass. -/
structure Reference where
  title : String
  text : String
  source : String
deriving DecidableEq, Repr

/-- One vector-index result: its similarity score and the metadata fields
the mapping reads. -/
structure VectorMatch where
  score : ℚ
  title : String
  text : String
  source : String
deriving DecidableEq, Repr

/-- Model of the result mapping of `IssueGatherer.query_pinecone`: the
embedding call and the index query are external collaborators, so the
index's result list is a parameter; the function builds one `Reference` per
result, in index order. -/
def queryPinecone (results : List VectorMatch) : List Reference :=
  results.map (fun m => ⟨m.title, m.text, m.source⟩)

/-! ## The output renderer `build_jira_comment` (src/src/utils/text.py:15-148) -/

/-- Model of Python `str.strip` on a `String` (used for `p.strip()`). -/
def trimStr (s : String) : String :=
  String.mk (pyStrip s.toList)

/-- Model of `p.replace("\r", "")` on a `String`. -/
def rmCRStr (s : String) : String :=
  String.mk (rmCR s.toList)

/-- Model of Python `content_text.split("\n\n")`: split on non-overlapping
occurrences of a blank line, scanning left to right. -/
def splitPara : List Char → List (List Char)
  | [] => [[]]
  | [c] => [[c]]
  | c1 :: c2 :: t =>
    if c1 = '\n' ∧ c2 = '\n' then [] :: splitPara t
    else
      match splitPara (c2 :: t) with
      | [] => [[c1]]
      | h :: r => (c1 :: h) :: r

/-- Model of `sep.join(lines)`. -/
def joinWith (sep : List Char) : List (List Char) → List Char
  | [] => []
  | [l] => l
  | l :: r :: rest => l ++ sep ++ joinWith sep (r :: rest)

/-- The deduplicating loop of `build_jira_comment` (src/src/utils/text.py:
27-36): walk `references` with a seen-set of sources, keeping the first
occurrence of each source as a `(title, source, today)` row. -/
def buildRefsList (today : String) (seen : List String) :
    List Reference → List (String × String × String)
  | [] => []
  | r :: t =>
    if r.source ∈ seen then buildRefsList today seen t
    else (r.title, r.source, today) :: buildRefsList today (r.source :: seen) t

/-- The paragraph split used by both representations
(src/src/utils/text.py:40 and 125-129): split on blank lines, strip each
paragraph, drop the empty ones. -/
def paragraphs (contentText : String) : List String :=
  ((splitPara contentText.toList).map (fun p => String.mk (pyStrip p))).filter
    (fun p => p ≠ "")

/-- One wiki-table data row `|[title|source]|date|`
(src/src/utils/text.py:50-52). -/
def rowLine (row : String × String × String) : String :=
  "|[" ++ row.1 ++ "|" ++ row.2.1 ++ "]|" ++ row.2.2 ++ "|"

/-- The `comment_lines` list of `build_jira_comment`
(src/src/utils/text.py:42-53): each paragraph (carriage returns removed)
followed by a blank line, then — only when references survive — the table
header, one data row per reference and a final blank line. -/
def commentLines (contentText : String)
    (refsList : List (String × String × String)) : List String :=
  (((paragraphs contentText).map (fun p => [rmCRStr p, ""])).flatten) ++
    (if refsList = [] then []
     else "||References||Date accessed||" :: refsList.map rowLine ++ [""])

/-- The rendered plain-text comment: `"\n".join(comment_lines).strip()`
(src/src/utils/text.py:55). -/
def commentText (contentText : String)
    (refsList : List (String × String × String)) : String :=
  String.mk (pyStrip
    (joinWith ['\n'] ((commentLines contentText refsList).map String.toList)))

/-- ADF paragraph node for one stripped paragraph
(src/src/utils/text.py:125-129). -/
def adfParagraphNode (p : String) : PyVal :=
  .obj [("type", .str "paragraph"),
        ("content", .arr [.obj [("type", .str "text"), ("text", .str p)]])]

/-- ADF header cell (src/src/utils/text.py:63-78). -/
def adfHeaderCell (h : String) : PyVal :=
  .obj [("type", .str "tableHeader"), ("attrs", .obj []),
        ("content", .arr [.obj [("type", .str "paragraph"),
          ("content", .arr [.obj [("type", .str "text"), ("text", .str h)]])]])]

/-- The ADF header row (`Reference`, `Date accessed`). -/
def adfHeaderRow : PyVal :=
  .obj [("type", .str "tableRow"),
        ("content", .arr [adfHeaderCell "Reference", adfHeaderCell "Date accessed"])]

/-- ADF data row for one reference (src/src/utils/text.py:81-121): a cell
with the title as a link to the source, and a cell with the access date. -/
def adfDataRow (row : String × String × String) : PyVal :=
  .obj [("type", .str "tableRow"),
        ("content", .arr [
          .obj [("type", .str "tableCell"), ("attrs", .obj []),
                ("content", .arr [.obj [("type", .str "paragraph"),
                  ("content", .arr [.obj [("type", .str "text"),
                    ("text", .str row.1),
                    ("marks", .arr [.obj [("type", .str "link"),
                      ("attrs", .obj [("href", .str row.2.1)])]])]])]])],
          .obj [("type", .str "tableCell"), ("attrs", .obj []),
                ("content", .arr [.obj [("type", .str "paragraph"),
                  ("content", .arr [.obj [("type", .str "text"),
                    ("text", .str row.2.2)]])]])]])]

/-- The ADF table node wrapped in the expand node
(src/src/utils/text.py:131-144). -/
def adfExpandNode (refsList : List (String × String × String)) : PyVal :=
  .obj [("type", .str "expand"), ("attrs", .obj [("title", .str "References")]),
        ("content", .arr [
          .obj [("type", .str "table"),
                ("attrs", .obj [("isNumberColumnEnabled", .bool false),
                                ("layout", .str "default")]),
                ("content", .arr (adfHeaderRow :: refsList.map adfDataRow))]])]

/-- The ADF document of `build_jira_comment` (src/src/utils/text.py:57-146):
an empty document when no reference survives deduplication; otherwise the
paragraph nodes followed by the expand node with the references table. -/
def buildAdf (contentText : String)
    (refsList : List (String × String × String)) : PyVal :=
  if refsList = [] then
    .obj [("type", .str "doc"), ("version", .num 1), ("content", .arr [])]
  else
    .obj [("type", .str "doc"), ("version", .num 1),
          ("content", .arr ((paragraphs contentText).map adfParagraphNode ++
            [adfExpandNode refsList]))]

/-- Model of `build_jira_comment` (src/src/utils/text.py:15-148).  The
`completion_content: str | None` parameter is an `Option String`
(`content_text = completion_content or ""`); `today` models
`datetime.date.today().isoformat()`.  Returns `(comment_text, adf)`. -/
def buildJiraComment (today : String) (completionContent : Option String)
    (references : List Reference) : String × PyVal :=
  let refsList := buildRefsList today [] references
  let contentText := completionContent.getD ""
  (commentText contentText refsList, buildAdf contentText refsList)

/-! ## Reading the ADF back (for the render-consistency claim) -/

/-- Look a key up in an ADF object node. -/
def pyGet (v : PyVal) (k : String) : Option PyVal :=
  match v with
  | .obj fs => fs.lookup k
  | _ => none

/-- The array under a key of an ADF node (empty when absent). -/
def pyGetArr (v : PyVal) (k : String) : List PyVal :=
  match pyGet v k with
  | some (.arr xs) => xs
  | _ => []

/-- Whether an ADF node has the given `type` field. -/
def hasType (v : PyVal) (t : String) : Bool :=
  match pyGet v "type" with
  | some (.str s) => s = t
  | _ => false

/-- The top-level content list of the ADF document. -/
def adfContent (adf : PyVal) : List PyVal :=
  pyGetArr adf "content"

/-- Number of paragraph nodes at the top level of the ADF document. -/
def countAdfParagraphs (adf : PyVal) : ℕ :=
  (adfContent adf).countP (fun n => hasType n "paragraph")

/-- The link target carried by the first cell of a table row, when that
cell is a data cell (`tableCell`); header rows carry `tableHeader` cells
and yield `none`. -/
def rowSource (row : PyVal) : Option String :=
  match pyGetArr row "content" with
  | cell :: _ =>
    if hasType cell "tableCell" then
      match pyGetArr cell "content" with
      | para :: _ =>
        match pyGetArr para "content" with
        | txt :: _ =>
          match pyGet txt "marks" with
          | some (.arr (mark :: _)) =>
            match pyGet mark "attrs" with
            | some a =>
              match pyGet a "href" with
              | some (.str h) => some h
              | _ => none
            | _ => none
          | _ => none
        | _ => none
      | _ => none
    else none
  | _ => none

/-- All reference sources readable from the ADF document: the link targets
of the data rows of the tables wrapped in top-level expand nodes. -/
def adfRefSources (adf : PyVal) : List String :=
  ((adfContent adf).filterMap (fun n =>
    if hasType n "expand" then
      some ((pyGetArr n "content").map (fun tbl =>
        (pyGetArr tbl "content").filterMap rowSource))
    else none)).flatten.flatten

/-! ## The prompt compiler (src/src/services/builder.py:68-134) -/

/-- Heading demotion applied to a reference body before compaction:
`ref.text.replace("\n#", "\n##")` (src/src/services/builder.py:102).
`str.replace` scans left to right over the original text, so each
occurrence of a newline followed by a hash gains exactly one extra hash. -/
def demote : List Char → List Char
  | [] => []
  | [c] => [c]
  | c1 :: c2 :: t =>
    if c1 = '\n' ∧ c2 = '#' then '\n' :: '#' :: '#' :: demote t
    else c1 :: demote (c2 :: t)

/-- One numbered reference subsection of the compiled user block
(src/src/services/builder.py:100-105). -/
def refSubsection (i : ℕ) (r : Reference) : String :=
  "### Reference " ++ toString i ++ ": " ++ r.title ++ "\n" ++
    builderCompact 1800 (String.mk (demote r.text.toList)) ++
    "\n\nSource: " ++ r.source

/-- The "Reference documents" section of the compiled user block
(src/src/services/builder.py:98-106), present only when there are
references. -/
def refSection (refs : List Reference) : Option String :=
  if refs.isEmpty then none
  else some (String.intercalate "\n\n"
    ("## Reference documents (retrieved)" ::
      refs.enum.map (fun ri => refSubsection (ri.1 + 1) ri.2)))

/-! ## Line-level specification of the demotion -/

/-- Split a character list into its `'\n'`-separated lines. -/
def splitNl : List Char → List (List Char)
  | [] => [[]]
  | c :: t =>
    if c = '\n' then [] :: splitNl t
    else
      match splitNl t with
      | [] => [[c]]
      | h :: r => (c :: h) :: r

/-- Join lines back with `'\n'`. -/
def joinNl : List (List Char) → List Char
  | [] => []
  | [l] => l
  | l :: r :: rest => l ++ '\n' :: joinNl (r :: rest)

/-- Add one hash in front of a line that starts with a hash. -/
def addHash (l : List Char) : List Char :=
  match l with
  | [] => []
  | c :: t => if c = '#' then '#' :: c :: t else c :: t

/-- Line-level reading of the demotion: the first line of the body is kept
as is, and every further line starting with `#` gains one `#`. -/
def demoteSpec (l : List Char) : List Char :=
  match splitNl l with
  | [] => []
  | h :: t => joinNl (h :: t.map addHash)

/-! ## Helper lemmas: deduplication -/

/-- Every row kept by the deduplicating loop has a source outside the
seen-set it started from. -/
theorem mem_buildRefsList_not_seen (today : String) :
    ∀ (refs : List Reference) (seen : List String)
      (x : String × String × String),
      x ∈ buildRefsList today seen refs → x.2.1 ∉ seen := by
  intro refs
  induction refs with
  | nil => intro seen x hx; simp [buildRefsList] at hx
  | cons r t ih =>
    intro seen x hx
    simp only [buildRefsList] at hx
    by_cases h : r.source ∈ seen
    · rw [if_pos h] at hx
      exact ih seen x hx
    · rw [if_neg h] at hx
      rcases List.mem_cons.mp hx with h1 | h2
      · subst h1; exact h
      · intro hmem
        exact ih _ x h2 (List.mem_cons_of_mem _ hmem)

/-- The deduplicated rows carry pairwise distinct sources. -/
theorem buildRefsList_sources_nodup (today : String) :
    ∀ (refs : List Reference) (seen : List String),
      ((buildRefsList today seen refs).map (fun x => x.2.1)).Nodup := by
  intro refs
  induction refs with
  | nil => intro seen; simp [buildRefsList]
  | cons r t ih =>
    intro seen
    simp only [buildRefsList]
    by_cases h : r.source ∈ seen
    · rw [if_pos h]; exact ih seen
    · rw [if_neg h]
      simp only [List.map_cons]
      refine List.nodup_cons.mpr ⟨?_, ih _⟩
      intro hmem
      rcases List.mem_map.mp hmem with ⟨x, hx, hxeq⟩
      exact mem_buildRefsList_not_seen today t _ x hx
        (hxeq ▸ List.mem_cons_self _ _)

/-- The deduplicated rows are a sublist of the rows of the whole input, in
input order. -/
theorem buildRefsList_sublist (today : String) :
    ∀ (refs : List Reference) (seen : List String),
      List.Sublist (buildRefsList today seen refs)
        (refs.map (fun r => (r.title, r.source, today))) := by
  intro refs
  induction refs with
  | nil => intro seen; simp [buildRefsList]
  | cons r t ih =>
    intro seen
    simp only [buildRefsList, List.map_cons]
    by_cases h : r.source ∈ seen
    · rw [if_pos h]; exact (ih seen).cons _
    · rw [if_neg h]; exact (ih _).cons₂ _

/-- For every source outside the seen-set, the first kept row with that
source is the row of the first input reference with that source. -/
theorem buildRefsList_find (today : String) :
    ∀ (refs : List Reference) (seen : List String) (s : String), s ∉ seen →
      (buildRefsList today seen refs).find? (fun x => x.2.1 == s)
        = (refs.find? (fun r => r.source == s)).map
            (fun r => (r.title, r.source, today)) := by
  intro refs
  induction refs with
  | nil => intro seen s _; simp [buildRefsList]
  | cons r t ih =>
    intro seen s hs
    simp only [buildRefsList]
    by_cases h : r.source ∈ seen
    · rw [if_pos h]
      have hne : (r.source == s) = false := by
        refine beq_eq_false_iff_ne.mpr ?_
        intro heq; exact hs (heq ▸ h)
      rw [ih seen s hs, List.find?_cons, hne]
    · rw [if_neg h]
      by_cases he : r.source = s
      · subst he
        simp [List.find?_cons]
      · have hne : (r.source == s) = false := beq_eq_false_iff_ne.mpr he
        have hs' : s ∉ r.source :: seen := by
          intro hmem
          rcases List.mem_cons.mp hmem with h1 | h2
          · exact he h1.symm
          · exact hs h2
        have ihx := ih _ s hs'
        simp only [List.find?_cons, hne]
        exact ihx

/-! ## Helper lemmas: reading the ADF back -/

theorem hasType_adfParagraphNode (p : String) :
    hasType (adfParagraphNode p) "paragraph" = true := rfl

theorem hasType_adfParagraphNode_expand (p : String) :
    hasType (adfParagraphNode p) "expand" = false := rfl

theorem hasType_adfExpandNode (rl : List (String × String × String)) :
    hasType (adfExpandNode rl) "paragraph" = false := rfl

theorem hasType_adfExpandNode_expand (rl : List (String × String × String)) :
    hasType (adfExpandNode rl) "expand" = true := rfl

theorem adfContent_doc (x : List PyVal) :
    adfContent (.obj [("type", .str "doc"), ("version", .num 1),
      ("content", .arr x)]) = x := rfl

theorem rowSource_adfDataRow (row : String × String × String) :
    rowSource (adfDataRow row) = some row.2.1 := rfl

theorem rowSource_adfHeaderRow : rowSource adfHeaderRow = none := rfl

/-- Counting paragraph nodes over the rendered paragraph list. -/
theorem countP_adfParagraphNodes (ps : List String) :
    (ps.map adfParagraphNode).countP (fun n => hasType n "paragraph")
      = ps.length := by
  induction ps with
  | nil => rfl
  | cons p t ih =>
    simp [List.countP_cons, hasType_adfParagraphNode, ih]

/-- The data rows of the rendered table yield exactly the deduplicated
sources. -/
theorem filterMap_rowSource_dataRows (rl : List (String × String × String)) :
    (rl.map adfDataRow).filterMap rowSource = rl.map (fun x => x.2.1) := by
  induction rl with
  | nil => rfl
  | cons x t ih =>
    simp [List.filterMap_cons, rowSource_adfDataRow, ih]

/-- Paragraph nodes contribute no expand sections. -/
theorem filterMap_expand_paragraphNodes (ps : List String)
    (f : PyVal → List (List String)) :
    (ps.map adfParagraphNode).filterMap
      (fun n => if hasType n "expand" then some (f n) else none) = [] := by
  induction ps with
  | nil => rfl
  | cons p t ih =>
    simp [List.filterMap_cons, hasType_adfParagraphNode_expand, ih]

/-! ## Helper lemmas: heading demotion -/

theorem splitNl_ne_nil : ∀ l : List Char, splitNl l ≠ [] := by
  intro l
  cases l with
  | nil => simp [splitNl]
  | cons c t =>
    simp only [splitNl]
    by_cases hc : c = '\n'
    · simp [hc]
    · rw [if_neg hc]
      rcases h : splitNl t with _ | ⟨h1, r⟩ <;> simp

theorem splitNl_exists (t : List Char) :
    ∃ h r, splitNl t = h :: r := by
  rcases hq : splitNl t with _ | ⟨h, r⟩
  · exact absurd hq (splitNl_ne_nil t)
  · exact ⟨h, r, rfl⟩

theorem joinNl_cons_cons (c : Char) (h : List Char) (rest : List (List Char)) :
    joinNl ((c :: h) :: rest) = c :: joinNl (h :: rest) := by
  cases rest with
  | nil => rfl
  | cons x xs => rfl

theorem joinNl_nil_cons (x : List Char) (xs : List (List Char)) :
    joinNl ([] :: x :: xs) = '\n' :: joinNl (x :: xs) := rfl

/-- The head line of `splitNl (c :: t)` does not start with `#` when `c`
is not `#`, so `addHash` leaves it unchanged. -/
theorem addHash_splitNl_head (c2 : Char) (t2 : List Char) (hc2 : ¬c2 = '#') :
    ∃ h0 r0, splitNl (c2 :: t2) = h0 :: r0 ∧ addHash h0 = h0 := by
  simp only [splitNl]
  by_cases hc : c2 = '\n'
  · rw [if_pos hc]
    exact ⟨[], splitNl t2, rfl, rfl⟩
  · rw [if_neg hc]
    obtain ⟨h, r, hs⟩ := splitNl_exists t2
    rw [hs]
    refine ⟨c2 :: h, r, rfl, ?_⟩
    simp [addHash, hc2]

theorem demote_cons2 (c1 c2 : Char) (t : List Char) :
    demote (c1 :: c2 :: t) =
      if c1 = '\n' ∧ c2 = '#' then '\n' :: '#' :: '#' :: demote t
      else c1 :: demote (c2 :: t) := rfl

theorem demoteSpec_of_splitNl {l h : List Char} {r : List (List Char)}
    (hs : splitNl l = h :: r) :
    demoteSpec l = joinNl (h :: r.map addHash) := by
  unfold demoteSpec
  rw [hs]

/-- The demotion `replace("\n#", "\n##")` is exactly the line-level map:
first line unchanged, later `#`-lines gain one `#`. -/
theorem demote_eq_demoteSpec : ∀ l : List Char, demote l = demoteSpec l := by
  have key : ∀ (n : ℕ) (l : List Char), l.length ≤ n →
      demote l = demoteSpec l := by
    intro n
    induction n with
    | zero =>
      intro l hl
      have : l = [] := List.length_eq_zero.mp (Nat.le_zero.mp hl)
      subst this; rfl
    | succ n ih =>
      intro l hl
      cases l with
      | nil => rfl
      | cons c t =>
        cases t with
        | nil =>
          by_cases hc : c = '\n' <;>
            simp [demote, demoteSpec, splitNl, joinNl, addHash, hc]
        | cons c2 t2 =>
          simp only [List.length_cons] at hl
          by_cases hpat : c = '\n' ∧ c2 = '#'
          · obtain ⟨hc, hc2⟩ := hpat
            subst hc; subst hc2
            have iht := ih t2 (by omega)
            obtain ⟨h, r, hsplit⟩ := splitNl_exists t2
            have hs1 : splitNl ('\n' :: '#' :: t2) = [] :: ('#' :: h) :: r := by
              rw [splitNl, if_pos rfl, splitNl, if_neg (by decide), hsplit]
            rw [demote_cons2, if_pos ⟨rfl, rfl⟩, demoteSpec_of_splitNl hs1]
            simp only [List.map_cons]
            rw [show addHash ('#' :: h) = '#' :: '#' :: h from by simp [addHash]]
            rw [joinNl_nil_cons, joinNl_cons_cons, joinNl_cons_cons]
            rw [iht, demoteSpec_of_splitNl hsplit]
          · have iht := ih (c2 :: t2) (by simp; omega)
            rw [demote_cons2, if_neg hpat]
            by_cases hc : c = '\n'
            · subst hc
              have hc2 : ¬c2 = '#' := fun h2 => hpat ⟨rfl, h2⟩
              obtain ⟨h0, r0, hsplit0, hadd⟩ := addHash_splitNl_head c2 t2 hc2
              have hs1 : splitNl ('\n' :: c2 :: t2) = [] :: h0 :: r0 := by
                rw [splitNl, if_pos rfl, hsplit0]
              rw [demoteSpec_of_splitNl hs1]
              simp only [List.map_cons, hadd]
              rw [joinNl_nil_cons, iht, demoteSpec_of_splitNl hsplit0]
            · obtain ⟨h0, r0, hsplit0⟩ := splitNl_exists (c2 :: t2)
              have hs1 : splitNl (c :: c2 :: t2) = (c :: h0) :: r0 := by
                rw [splitNl, if_neg hc, hsplit0]
              rw [demoteSpec_of_splitNl hs1, joinNl_cons_cons, iht,
                demoteSpec_of_splitNl hsplit0]
  intro l
  exact key l.length l le_rfl

/-! ## Helper lemmas: compaction and selection -/

theorem builderCompact_spec (text : String) (L : ℕ) (hL : 220 ≤ L) :
    builderCompact L text =
      (if (normalizeText text).length ≤ L then String.mk (normalizeText text)
       else String.mk ((normalizeText text).take (L - 220) ++ marker ++
         (normalizeText text).drop ((normalizeText text).length - 200))) ∧
    (builderCompact L text).length ≤ L := by
  have h1 : pySliceTo ((L : ℤ) - 220) (normalizeText text)
      = (normalizeText text).take (L - 220) := by
    unfold pySliceTo
    rw [if_pos (by omega : (0 : ℤ) ≤ (L : ℤ) - 220)]
    have h2 : ((L : ℤ) - 220).toNat = L - 220 := by omega
    rw [h2]
  unfold builderCompact
  by_cases h : (normalizeText text).length ≤ L
  · rw [if_pos h, if_pos h]
    exact ⟨rfl, h⟩
  · rw [if_neg h, if_neg h, h1]
    refine ⟨rfl, ?_⟩
    have hgt : L < (normalizeText text).length := Nat.not_le.mp h
    show ((normalizeText text).take (L - 220) ++ marker ++
      pyLastN 200 (normalizeText text)).length ≤ L
    simp only [List.length_append, List.length_take, pyLastN,
      List.length_drop, marker, List.length_cons, List.length_nil]
    omega

theorem gathererCompact_spec (text : String) (L : ℕ) (hL : 200 ≤ L) :
    gathererCompact L text =
      (if (normalizeText text).length ≤ L then String.mk (normalizeText text)
       else String.mk ((normalizeText text).take (L - 200) ++ marker ++
         (normalizeText text).drop ((normalizeText text).length - 180))) ∧
    (gathererCompact L text).length ≤ L := by
  have h1 : pySliceTo ((L : ℤ) - 200) (normalizeText text)
      = (normalizeText text).take (L - 200) := by
    unfold pySliceTo
    rw [if_pos (by omega : (0 : ℤ) ≤ (L : ℤ) - 200)]
    have h2 : ((L : ℤ) - 200).toNat = L - 200 := by omega
    rw [h2]
  unfold gathererCompact
  by_cases h : (normalizeText text).length ≤ L
  · rw [if_pos h, if_pos h]
    exact ⟨rfl, h⟩
  · rw [if_neg h, if_neg h, h1]
    refine ⟨rfl, ?_⟩
    have hgt : L < (normalizeText text).length := Nat.not_le.mp h
    show ((normalizeText text).take (L - 200) ++ marker ++
      pyLastN 180 (normalizeText text)).length ≤ L
    simp only [List.length_append, List.length_take, pyLastN,
      List.length_drop, marker, List.length_cons, List.length_nil]
    omega

/-- Membership in the id set produced from the score map. -/
theorem contains_idSet (scores : List (String × ℚ)) (θ : ℚ) (i : String) :
    (idSet scores θ).contains i = true ↔ ∃ v, (i, v) ∈ scores ∧ θ ≤ v := by
  rw [List.elem_iff]
  unfold idSet
  constructor
  · intro h
    rcases List.mem_map.mp h with ⟨kv, hkv, hfst⟩
    rcases List.mem_filter.mp hkv with ⟨hmem, hv⟩
    refine ⟨kv.2, ?_, by simpa using hv⟩
    have : kv = (i, kv.2) := by
      rcases kv with ⟨k1, v1⟩
      simp at hfst ⊢
      exact hfst
    rw [← this]
    exact hmem
  · rintro ⟨v, hmem, hv⟩
    refine List.mem_map.mpr ⟨(i, v), List.mem_filter.mpr ⟨hmem, by simpa using hv⟩, rfl⟩

/-! ## Helper lemmas: the two renderer outputs -/

theorem pyGetArr_expandNode (rl : List (String × String × String)) :
    pyGetArr (adfExpandNode rl) "content"
      = [.obj [("type", .str "table"),
               ("attrs", .obj [("isNumberColumnEnabled", .bool false),
                               ("layout", .str "default")]),
               ("content", .arr (adfHeaderRow :: rl.map adfDataRow))]] := rfl

theorem pyGetArr_tableNode (rl : List (String × String × String)) :
    pyGetArr (.obj [("type", .str "table"),
               ("attrs", .obj [("isNumberColumnEnabled", .bool false),
                               ("layout", .str "default")]),
               ("content", .arr (adfHeaderRow :: rl.map adfDataRow))]) "content"
      = adfHeaderRow :: rl.map adfDataRow := rfl

/-- Paragraph count of the ADF document when references survive. -/
theorem countAdfParagraphs_buildAdf (text : String)
    (rl : List (String × String × String)) (h : rl ≠ []) :
    countAdfParagraphs (buildAdf text rl) = (paragraphs text).length := by
  unfold buildAdf
  rw [if_neg h]
  unfold countAdfParagraphs
  rw [adfContent_doc, List.countP_append, countP_adfParagraphNodes]
  simp [List.countP_cons, hasType_adfExpandNode]

/-- Reference sources of the ADF document when references survive. -/
theorem adfRefSources_buildAdf (text : String)
    (rl : List (String × String × String)) (h : rl ≠ []) :
    adfRefSources (buildAdf text rl) = rl.map (fun x => x.2.1) := by
  unfold buildAdf
  rw [if_neg h]
  unfold adfRefSources
  rw [adfContent_doc, List.filterMap_append, filterMap_expand_paragraphNodes]
  simp only [List.filterMap_cons, List.filterMap_nil, hasType_adfExpandNode_expand,
    pyGetArr_expandNode, pyGetArr_tableNode, if_pos, List.map_cons, List.map_nil,
    List.nil_append, List.flatten_cons, List.flatten_nil, List.append_nil,
    rowSource_adfHeaderRow]
  exact filterMap_rowSource_dataRows rl

/-- The plain-text line list when references survive. -/
theorem commentLines_ne (text : String)
    (rl : List (String × String × String)) (h : rl ≠ []) :
    commentLines text rl =
      ((paragraphs text).map (fun p => [rmCRStr p, ""])).flatten ++
        (("||References||Date accessed||" :: rl.map rowLine) ++ [""]) := by
  unfold commentLines
  rw [if_neg h]

/-- The plain-text line list when no reference survives. -/
theorem commentLines_nil (text : String) :
    commentLines text [] =
      ((paragraphs text).map (fun p => [rmCRStr p, ""])).flatten := by
  unfold commentLines
  rw [if_pos rfl, List.append_nil]

/-! ## Claims -/

/-- Claim C1, counterexample: with completion text `"hello"` and an empty
reference list, the plain-text output is the paragraph `"hello"` (one
paragraph block) while the ADF document is empty (zero paragraph blocks),
because `build_jira_comment` only assembles the ADF paragraphs inside the
`if refs_list:` branch.  So the two outputs do not contain the same number
of paragraph blocks when the deduplicated reference list is empty. -/
theorem C1_counterexample :
    countAdfParagraphs (buildJiraComment "2026-10-12" (some "hello") []).2 = 0 ∧
    (paragraphs "hello").length = 1 ∧
    (buildJiraComment "2026-10-12" (some "hello") []).1 = "hello" ∧
    adfRefSources (buildJiraComment "2026-10-12" (some "hello") []).2 = [] := by
  refine ⟨by decide, by decide, by decide, by decide⟩

/-- Claim C1, amended: whenever at least one reference survives
deduplication, the ADF document contains exactly one paragraph node per
non-empty blank-line-separated paragraph of the completion text and its
table rows carry exactly the deduplicated sources, and the plain-text line
list consists of the same paragraphs followed by one table row per
deduplicated reference; when no reference survives, the ADF document is
empty while the plain text still carries the paragraphs. -/
theorem C1_amended :
    ∀ (today : String) (completion : Option String) (refs : List Reference),
      buildRefsList today [] refs ≠ [] →
      countAdfParagraphs (buildJiraComment today completion refs).2
          = (paragraphs (completion.getD "")).length ∧
      adfRefSources (buildJiraComment today completion refs).2
          = (buildRefsList today [] refs).map (fun x => x.2.1) ∧
      commentLines (completion.getD "") (buildRefsList today [] refs)
          = ((paragraphs (completion.getD "")).map (fun p => [rmCRStr p, ""])).flatten ++
              (("||References||Date accessed||"
                :: (buildRefsList today [] refs).map rowLine) ++ [""]) := by
  intro today completion refs h
  refine ⟨countAdfParagraphs_buildAdf _ _ h, adfRefSources_buildAdf _ _ h,
    commentLines_ne _ _ h⟩

/-- Claim C1, witness for the amended statement at a concrete input. -/
theorem C1_witness :
    countAdfParagraphs (buildJiraComment "2026-10-12" (some "hello\n\nworld")
        [⟨"A", "", "http://x/1"⟩]).2
      = (paragraphs "hello\n\nworld").length ∧
    adfRefSources (buildJiraComment "2026-10-12" (some "hello\n\nworld")
        [⟨"A", "", "http://x/1"⟩]).2
      = (buildRefsList "2026-10-12" [] [⟨"A", "", "http://x/1"⟩]).map (fun x => x.2.1) ∧
    commentLines "hello\n\nworld" (buildRefsList "2026-10-12" [] [⟨"A", "", "http://x/1"⟩])
      = ((paragraphs "hello\n\nworld").map (fun p => [rmCRStr p, ""])).flatten ++
          (("||References||Date accessed||"
            :: (buildRefsList "2026-10-12" [] [⟨"A", "", "http://x/1"⟩]).map rowLine)
            ++ [""]) :=
  C1_amended "2026-10-12" (some "hello\n\nworld") [⟨"A", "", "http://x/1"⟩] (by decide)

set_option maxRecDepth 8192 in
/-- Claim C2, counterexample: (i) the compactors normalise first, so a
short input with surrounding whitespace is not returned unchanged; (ii) the
output length bound `L` plus the marker length fails for small limits,
because `text[: limit - 200]` with a negative index keeps everything but
the last 170-plus characters instead of a short head; (iii) the gatherer
compactor keeps the first `L-200` and last 180 characters, not the first
`L-220` and last 200 the claim states. -/
theorem C2_counterexample :
    gathererCompact 10 " a" ≠ " a" ∧
    25 + marker.length < (gathererCompact 25 (String.mk (List.replicate 30 'a'))).length ∧
    gathererCompact 230 (String.mk (List.replicate 10 'a' ++ List.replicate 221 'b'))
      ≠ String.mk (List.replicate 10 'a' ++ marker ++ List.replicate 200 'b') := by
  refine ⟨by decide, by decide, by decide⟩

/-- Claim C2, amended: both compactors first drop carriage returns and
strip surrounding whitespace; for limits of at least 220 (builder) resp.
200 (gatherer), the normalised text is returned as is when its length is
at most `L`, and otherwise the output is the first `L-220` (builder) resp.
`L-200` (gatherer) characters, the marker, and the final 200 resp. 180
characters, so the output length never exceeds `L`; an already normalised
text of length at most `L` is returned exactly. -/
theorem C2_amended :
    ∀ (text : String) (L : ℕ),
      (220 ≤ L →
        builderCompact L text =
          (if (normalizeText text).length ≤ L then String.mk (normalizeText text)
           else String.mk ((normalizeText text).take (L - 220) ++ marker ++
             (normalizeText text).drop ((normalizeText text).length - 200))) ∧
        (builderCompact L text).length ≤ L) ∧
      (200 ≤ L →
        gathererCompact L text =
          (if (normalizeText text).length ≤ L then String.mk (normalizeText text)
           else String.mk ((normalizeText text).take (L - 200) ++ marker ++
             (normalizeText text).drop ((normalizeText text).length - 180))) ∧
        (gathererCompact L text).length ≤ L) ∧
      (normalizeText text = text.toList → text.length ≤ L →
        builderCompact L text = text ∧ gathererCompact L text = text) := by
  intro text L
  refine ⟨builderCompact_spec text L, gathererCompact_spec text L, ?_⟩
  intro hnorm hlen
  have hlen2 : (normalizeText text).length ≤ L := by
    rw [hnorm]; exact hlen
  have hmk : String.mk (normalizeText text) = text := by
    rw [hnorm]; cases text; rfl
  constructor
  · unfold builderCompact
    rw [if_pos hlen2, hmk]
  · unfold gathererCompact
    rw [if_pos hlen2, hmk]

/-- Claim C2, witness for the amended statement at a concrete input. -/
theorem C2_witness :
    (builderCompact 230 "abc" =
      (if (normalizeText "abc").length ≤ 230 then String.mk (normalizeText "abc")
       else String.mk ((normalizeText "abc").take (230 - 220) ++ marker ++
         (normalizeText "abc").drop ((normalizeText "abc").length - 200))) ∧
      (builderCompact 230 "abc").length ≤ 230) ∧
    builderCompact 230 "abc" = "abc" :=
  ⟨(C2_amended "abc" 230).1 (by decide),
   ((C2_amended "abc" 230).2.2 (by decide) (by decide)).1⟩

/-- Claim C3, counterexample: two vector-index results that share a source
are both mapped into the returned reference list — `query_pinecone` does
not deduplicate, so the returned list can contain two entries with equal
source. -/
theorem C3_counterexample :
    queryPinecone [⟨1, "A", "d1", "http://x/1"⟩, ⟨9/10, "B", "d2", "http://x/1"⟩]
      = [⟨"A", "d1", "http://x/1"⟩, ⟨"B", "d2", "http://x/1"⟩] ∧
    ¬ ((queryPinecone [⟨1, "A", "d1", "http://x/1"⟩,
        ⟨9/10, "B", "d2", "http://x/1"⟩]).map Reference.source).Nodup := by
  refine ⟨rfl, by decide⟩

/-- Claim C3, amended: `query_pinecone` returns one reference per index
result in index order, without deduplication; the first-occurrence-wins
deduplication on `source` (which preserves the ranking order of the
retained entries) is performed later, in the renderer
(`build_jira_comment`). -/
theorem C3_amended :
    (∀ results : List VectorMatch,
      (queryPinecone results).map Reference.source
          = results.map VectorMatch.source ∧
      (queryPinecone results).length = results.length) ∧
    (∀ (today : String) (refs : List Reference),
      ((buildRefsList today [] refs).map (fun x => x.2.1)).Nodup ∧
      List.Sublist (buildRefsList today [] refs)
        (refs.map (fun r => (r.title, r.source, today))) ∧
      (∀ s : String,
        (buildRefsList today [] refs).find? (fun x => x.2.1 == s)
          = (refs.find? (fun r => r.source == s)).map
              (fun r => (r.title, r.source, today)))) := by
  refine ⟨fun results => ⟨?_, ?_⟩, fun today refs => ⟨?_, ?_, ?_⟩⟩
  · simp [queryPinecone]
  · simp [queryPinecone]
  · exact buildRefsList_sources_nodup today refs []
  · exact buildRefsList_sublist today refs []
  · intro s
    exact buildRefsList_find today refs [] s (by simp)

/-- Claim C4, counterexample: the plain-text table header written by
`build_jira_comment` is `||References||Date accessed||`, not the
`||Reference||Date accessed||` the claim states. -/
theorem C4_counterexample :
    ("||Reference||Date accessed||" ∉
      commentLines "hello" (buildRefsList "2026-10-12" [] [⟨"A", "", "http://x/1"⟩])) ∧
    ("||References||Date accessed||" ∈
      commentLines "hello" (buildRefsList "2026-10-12" [] [⟨"A", "", "http://x/1"⟩])) ∧
    commentText "hello" (buildRefsList "2026-10-12" [] [⟨"A", "", "http://x/1"⟩])
      = "hello\n\n||References||Date accessed||\n|[A|http://x/1]|2026-10-12|" := by
  refine ⟨by decide, by decide, by decide⟩

/-- Claim C4, amended: the rendered table is built from the
first-occurrence-per-source deduplication of the input (no two rows share
a source, input order preserved, first occurrence retained); when at least
one reference survives the line list holds the header row
`||References||Date accessed||` followed by exactly one data row per
deduplicated reference, and when none survive the table block is omitted;
the example `[A:http://x/1, B:http://x/1, C:http://x/2]` deduplicates to
exactly the two rows for `A` and `C`. -/
theorem C4_amended :
    ∀ (today text : String) (refs : List Reference),
      ((buildRefsList today [] refs).map (fun x => x.2.1)).Nodup ∧
      List.Sublist (buildRefsList today [] refs)
        (refs.map (fun r => (r.title, r.source, today))) ∧
      (buildRefsList today [] refs ≠ [] →
        commentLines text (buildRefsList today [] refs) =
          ((paragraphs text).map (fun p => [rmCRStr p, ""])).flatten ++
            (("||References||Date accessed||"
              :: (buildRefsList today [] refs).map rowLine) ++ [""])) ∧
      (buildRefsList today [] refs = [] →
        commentLines text (buildRefsList today [] refs) =
          ((paragraphs text).map (fun p => [rmCRStr p, ""])).flatten) ∧
      buildRefsList today []
          [⟨"A", "", "http://x/1"⟩, ⟨"B", "", "http://x/1"⟩, ⟨"C", "", "http://x/2"⟩]
        = [("A", "http://x/1", today), ("C", "http://x/2", today)] := by
  intro today text refs
  refine ⟨buildRefsList_sources_nodup today refs [],
    buildRefsList_sublist today refs [], ?_, ?_, ?_⟩
  · intro h
    exact commentLines_ne text _ h
  · intro h
    rw [h]
    exact commentLines_nil text
  · simp [buildRefsList]

/-- Claim C4, witness for the amended statement at a concrete input. -/
theorem C4_witness :
    commentLines "hello" (buildRefsList "2026-10-12" [] [⟨"A", "", "http://x/1"⟩])
      = ((paragraphs "hello").map (fun p => [rmCRStr p, ""])).flatten ++
          (("||References||Date accessed||"
            :: (buildRefsList "2026-10-12" [] [⟨"A", "", "http://x/1"⟩]).map rowLine)
            ++ [""]) :=
  (C4_amended "2026-10-12" "hello" [⟨"A", "", "http://x/1"⟩]).2.2.1 (by decide)

/-- Claim C5, confirmed: a comment is selected by `ai_filter_comments` if
and only if it is one of the issue's comments and its id appears in the
validated score map with a value at or above the threshold (inclusive);
candidate ids absent from the map are simply not selected.  The example
response scoring `"10"` at 0.7 and `"11"` at 0.3 with threshold 1/2 over
candidates `10, 11, 12` selects exactly comment `10`. -/
theorem C5_selection_rule :
    (∀ (content : String) (comments : List JComment) (θ : ℚ) (c : JComment),
      c ∈ (aiFilterComments content comments θ).1 ↔
        c ∈ comments ∧ ∃ v : ℚ, (c.id, v) ∈ validatedScores content ∧ θ ≤ v) ∧
    aiFilterComments "\x7b\"scores\": \x7b\"10\": 0.7, \"11\": 0.3\x7d\x7d"
        [⟨"10", "", "", ""⟩, ⟨"11", "", "", ""⟩, ⟨"12", "", "", ""⟩] (1/2)
      = ([⟨"10", "", "", ""⟩], [("10", 7/10), ("11", 3/10)]) := by
  constructor
  · intro content comments θ c
    simp only [aiFilterComments, List.mem_filter]
    rw [contains_idSet]
  · decide

/-- Claim C6, counterexample: a response scoring the id `"999"`, which is
not among the candidate comments, still yields `"999"` as a key of the
score map returned by `ai_filter_comments` — the code returns
`parsed.scores` unfiltered, so scores for unknown ids are not discarded
from the returned map. -/
theorem C6_counterexample :
    ("999" ∈ ((aiFilterComments "\x7b\"scores\": \x7b\"999\": 1\x7d\x7d"
        [⟨"10", "a", "t", "b"⟩] (1/2)).2.map Prod.fst)) ∧
    ("999" ∉ ([⟨"10", "a", "t", "b"⟩] : List JComment).map JComment.id) ∧
    (aiFilterComments "\x7b\"scores\": \x7b\"999\": 1\x7d\x7d"
        [⟨"10", "a", "t", "b"⟩] (1/2)).1 = [] := by
  refine ⟨by decide, by decide, by decide⟩

/-- Claim C6, amended: the selected comment list only ever contains
candidate comments (scored unknown ids select nothing), but the returned
score map is exactly the validated response map, independent of the
candidate set, and may therefore contain keys that correspond to no
candidate comment. -/
theorem C6_amended :
    ∀ (content : String) (comments comments2 : List JComment) (θ θ2 : ℚ),
      (aiFilterComments content comments θ).2 = validatedScores content ∧
      (aiFilterComments content comments θ).2
          = (aiFilterComments content comments2 θ2).2 ∧
      (∀ c ∈ (aiFilterComments content comments θ).1, c ∈ comments) := by
  intro content comments comments2 θ θ2
  refine ⟨rfl, rfl, ?_⟩
  intro c hc
  simp only [aiFilterComments] at hc
  exact (List.mem_filter.mp hc).1

/-- Claim C6, witness for the amended statement at a concrete input. -/
theorem C6_witness :
    (⟨"10", "a", "t", "b"⟩ : JComment) ∈ ([⟨"10", "a", "t", "b"⟩] : List JComment) :=
  (C6_amended "\x7b\"scores\": \x7b\"10\": 1\x7d\x7d" [⟨"10", "a", "t", "b"⟩] []
    (1/2) 0).2.2 ⟨"10", "a", "t", "b"⟩ (by decide)

/-- Claim C7, code bug: in `_RelevantSelectionModel` the `@classmethod`
decorator is applied above `@field_validator("scores", mode="after")`, so
the entry-filtering validator `_validate_scores` is never registered with
pydantic.  With the response `{"scores": {"10": 0.7, "11": 2.0}}` the
annotated field schema (`le=1`) makes the single out-of-range entry fatal:
`model_validate` raises, `ai_filter_comments` falls back to the empty
selection `([], {})` and the valid entry `"10": 0.7` is lost — whereas the
claim (and the body of `_validate_scores` itself, embedded as
`validateScoresFilter`) drops only the invalid entry and keeps
`{"10": 0.7}`. -/
theorem C7_validator_not_registered :
    extractJson "\x7b\"scores\": \x7b\"10\": 0.7, \"11\": 2.0\x7d\x7d"
      = some (.obj [("scores", .obj [("10", .num (7/10)), ("11", .num 2)])]) ∧
    modelValidate (.obj [("scores", .obj [("10", .num (7/10)), ("11", .num 2)])])
      = none ∧
    aiFilterComments "\x7b\"scores\": \x7b\"10\": 0.7, \"11\": 2.0\x7d\x7d"
      [⟨"10", "a", "t", "b"⟩, ⟨"11", "a", "t", "b"⟩] (1/2) = ([], []) ∧
    validateScoresFilter [("10", .num (7/10)), ("11", .num 2)] = [("10", 7/10)] := by
  refine ⟨rfl, by decide, by decide, by decide⟩

/-- Claim C8, confirmed: whenever the stripped model response does not
parse as JSON and contains no parsable balanced brace block — that is,
either no first-to-last brace block exists at all, or the one that exists
does not parse as JSON either — the classifier returns the empty selection
and the empty score map (and, being total, raises nothing).  This covers
both failure paths of `_extract_json`: no `\x7b...\x7d` match, and a match
whose `json.loads` retry fails. -/
theorem C8_garbage_returns_empty :
    ∀ (content : String) (comments : List JComment) (θ : ℚ),
      parseJson (String.mk (pyStrip content.toList)) = none →
      (∀ b, braceBlock (pyStrip content.toList) = some b →
        parseJson (String.mk b) = none) →
      aiFilterComments content comments θ = ([], []) := by
  intro content comments θ h1 h2
  have he : extractJson content = none := by
    unfold extractJson
    rw [h1]
    rcases hq : braceBlock (pyStrip content.toList) with _ | b
    · rfl
    · exact h2 b hq
  have hscores : validatedScores content = [] := by
    unfold validatedScores
    rw [he]
    exact rfl
  unfold aiFilterComments
  rw [hscores]
  have hf : comments.filter
      (fun c => (idSet ([] : List (String × ℚ)) θ).contains c.id) = [] := by
    induction comments with
    | nil => rfl
    | cons c t ih =>
      rw [List.filter_cons, if_neg (fun h => nomatch h)]
      exact ih
  rw [hf]

/-- Claim C8, witness at a concrete garbage response that does contain a
brace block, but one that fails to parse: the retry path of
`_extract_json` also ends in the empty selection. -/
theorem C8_witness :
    (parseJson (String.mk (pyStrip ("text \x7boops\x7d more").toList)) = none) ∧
    (braceBlock (pyStrip ("text \x7boops\x7d more").toList)
      = some (("\x7boops\x7d").toList)) ∧
    (parseJson (String.mk (("\x7boops\x7d").toList)) = none) ∧
    aiFilterComments "text \x7boops\x7d more" [⟨"10", "a", "t", "b"⟩] (1/2)
      = ([], []) := by
  refine ⟨rfl, rfl, rfl,
    C8_garbage_returns_empty "text \x7boops\x7d more" [⟨"10", "a", "t", "b"⟩]
      (1/2) rfl ?_⟩
  intro b hb
  have h0 : braceBlock (pyStrip ("text \x7boops\x7d more").toList)
      = some (("\x7boops\x7d").toList) := rfl
  rw [h0] at hb
  injection hb with hbb
  subst hbb
  rfl

/-- Claim C9, counterexample: `replace("\n#", "\n##")` only rewrites hash
lines preceded by a newline, so a `#`-heading at the very start of the
reference body is left undemoted in the compiled subsection: for the body
`"# A\n# B"` the compiled block keeps the line `# A` and contains no line
`## A`. -/
theorem C9_counterexample :
    String.mk (demote ("# A\n# B").toList) = "# A\n## B" ∧
    refSubsection 1 ⟨"T", "# A\n# B", "S"⟩
      = "### Reference 1: T\n# A\n## B\n\nSource: S" ∧
    ¬ (("## A").toList ∈ splitNl ((refSubsection 1 ⟨"T", "# A\n# B", "S"⟩).toList)) ∧
    (("# A").toList ∈ splitNl ((refSubsection 1 ⟨"T", "# A\n# B", "S"⟩).toList)) := by
  refine ⟨by decide, by decide, by decide, by decide⟩

/-- Claim C9, amended: in the reference body, every `#`-line that is
preceded by a newline gains exactly one extra `#` (the first line of the
body is kept unchanged even when it starts with `#`); the demotion is
applied to the body before the 1800-character compaction, and the compiled
subsection ends with the reference's source. -/
theorem C9_demotion :
    (∀ l : List Char, demote l = demoteSpec l) ∧
    (∀ (i : ℕ) (r : Reference),
      refSubsection i r = "### Reference " ++ toString i ++ ": " ++ r.title ++ "\n" ++
        builderCompact 1800 (String.mk (demote r.text.toList)) ++
        "\n\nSource: " ++ r.source) :=
  ⟨demote_eq_demoteSpec, fun _ _ => rfl⟩

/-- Claim C10, confirmed: whatever the model response and threshold, the
selected comments form an ordered subsequence of the issue's comment list
(so the tracker's original order is preserved and nothing outside the
issue's comments is selected), and the selection has no duplicates as soon
as the issue's comment list has none. -/
theorem C10_selected_subsequence :
    ∀ (content : String) (comments : List JComment) (θ : ℚ),
      List.Sublist (aiFilterComments content comments θ).1 comments ∧
      (comments.Nodup → (aiFilterComments content comments θ).1.Nodup) := by
  intro content comments θ
  have hsub : List.Sublist (aiFilterComments content comments θ).1 comments := by
    simp only [aiFilterComments]
    exact List.filter_sublist comments
  exact ⟨hsub, fun h => List.Nodup.sublist hsub h⟩

/-- Claim C10, witness at a concrete input. -/
theorem C10_witness :
    List.Sublist
      (aiFilterComments "junk" [⟨"1", "", "", ""⟩, ⟨"2", "", "", ""⟩] (1/2)).1
      [⟨"1", "", "", ""⟩, ⟨"2", "", "", ""⟩] ∧
    (aiFilterComments "junk" [⟨"1", "", "", ""⟩, ⟨"2", "", "", ""⟩] (1/2)).1.Nodup := by
  have h := C10_selected_subsequence "junk" [⟨"1", "", "", ""⟩, ⟨"2", "", "", ""⟩] (1/2)
  exact ⟨h.1, h.2 (by decide)⟩

end CermPipeline
